import Mathlib

/-!
Shallow embedding of `boltstore` (`src/store.go`): a session store backed by
an embedded key-value database.  Go strings are modelled as `List Char`,
byte slices as `List Nat`, the bolt bucket as an association list, and the
external collaborators (gob codec, protobuf codec, secure-cookie codec,
random key generator, clock, and database-transaction faults) as an
explicit environment record passed to each operation.
-/

namespace Boltstore

/-- Go strings, modelled as lists of characters. -/
abbrev GoStr := List Char

/-- Go byte slices, modelled as lists of naturals. -/
abbrev Bytes := List Nat

/-- The application-level session payload, a mapping from keys to values
(a Go map from interface to interface, opaque to the store). -/
abbrev Values := List (GoStr × GoStr)

/-- Errors returned by the external collaborators and the backing store. -/
inductive Err where
  | backingStore : Err
  | keyRequired : Err
  | malformed : Err
  | cookieDecode : Err
  | cookieEncode : Err
  | gobFail : Err
  deriving DecidableEq, Repr

/-- The wire record persisted under a session identifier: the gob-serialized
values blob and an absolute expiration timestamp (`0` = no expiration).
This is the protobuf `Session` message of the repository. -/
structure Session where
  values : Bytes
  expiresAt : Int
  deriving DecidableEq, Repr

/-- Cookie options (`gorilla/sessions.Options`). -/
structure Options where
  path : GoStr
  domain : GoStr
  maxAge : Int
  secure : Bool
  httpOnly : Bool
  deriving DecidableEq, Repr

/-- The in-memory session object (`gorilla/sessions.Session`): identifier,
freshness flag, decoded values, and cookie options. -/
structure GoSession where
  id : GoStr
  isNew : Bool
  values : Values
  options : Options
  deriving DecidableEq, Repr

/-- An HTTP response cookie as emitted by `Save`: name, value and the
session options it was built from. -/
structure Cookie where
  name : GoStr
  value : GoStr
  opts : Options
  deriving DecidableEq, Repr

/-- The contents of the store's bucket: an association list from session
identifiers to stored record bytes. -/
abbrev DB := List (GoStr × Bytes)

/-- `bucket.Get`: point lookup of a key in the bucket. -/
def dbGet : DB → GoStr → Option Bytes
  | [], _ => none
  | (k, v) :: tl, key => if k = key then some v else dbGet tl key

/-- `bucket.Delete`: removes a key from the bucket; a no-op when absent. -/
def dbDelete : DB → GoStr → DB
  | [], _ => []
  | (k, v) :: tl, key => if k = key then dbDelete tl key else (k, v) :: dbDelete tl key

/-- `bucket.Put`: upserts a key-value pair in the bucket.  Bolt rejects a
blank key with `ErrKeyRequired`. -/
def dbPut (db : DB) (key : GoStr) (v : Bytes) : Except Err DB :=
  if key = [] then .error .keyRequired
  else .ok ((key, v) :: dbDelete db key)

/-- The standard base-32 alphabet used by `encoding/base32.StdEncoding`. -/
def b32alphabet : List Char :=
  ['A', 'B', 'C', 'D', 'E', 'F', 'G', 'H', 'I', 'J', 'K', 'L', 'M',
   'N', 'O', 'P', 'Q', 'R', 'S', 'T', 'U', 'V', 'W', 'X', 'Y', 'Z',
   '2', '3', '4', '5', '6', '7']

/-- Looks up a 5-bit group in the base-32 alphabet (all indices produced by
the encoder are below 32 for byte inputs, so the modulus is a no-op there). -/
def b32char (n : Nat) : Char :=
  b32alphabet.getD (n % 32) 'A'

/-- Encodes one final group of 1 to 5 bytes into 8 base-32 characters,
padding with the character `=` exactly as `encoding/base32.StdEncoding`. -/
def b32group : List Nat → List Char
  | [b0, b1, b2, b3, b4] =>
      [b32char (b0 >>> 3),
       b32char (((b0 &&& 7) <<< 2) ||| (b1 >>> 6)),
       b32char ((b1 >>> 1) &&& 31),
       b32char (((b1 &&& 1) <<< 4) ||| (b2 >>> 4)),
       b32char (((b2 &&& 15) <<< 1) ||| (b3 >>> 7)),
       b32char ((b3 >>> 2) &&& 31),
       b32char (((b3 &&& 3) <<< 3) ||| (b4 >>> 5)),
       b32char (b4 &&& 31)]
  | [b0, b1, b2, b3] =>
      [b32char (b0 >>> 3),
       b32char (((b0 &&& 7) <<< 2) ||| (b1 >>> 6)),
       b32char ((b1 >>> 1) &&& 31),
       b32char (((b1 &&& 1) <<< 4) ||| (b2 >>> 4)),
       b32char (((b2 &&& 15) <<< 1) ||| (b3 >>> 7)),
       b32char ((b3 >>> 2) &&& 31),
       b32char ((b3 &&& 3) <<< 3),
       '=']
  | [b0, b1, b2] =>
      [b32char (b0 >>> 3),
       b32char (((b0 &&& 7) <<< 2) ||| (b1 >>> 6)),
       b32char ((b1 >>> 1) &&& 31),
       b32char (((b1 &&& 1) <<< 4) ||| (b2 >>> 4)),
       b32char ((b2 &&& 15) <<< 1),
       '=', '=', '=']
  | [b0, b1] =>
      [b32char (b0 >>> 3),
       b32char (((b0 &&& 7) <<< 2) ||| (b1 >>> 6)),
       b32char ((b1 >>> 1) &&& 31),
       b32char ((b1 &&& 1) <<< 4),
       '=', '=', '=', '=']
  | [b0] =>
      [b32char (b0 >>> 3),
       b32char ((b0 &&& 7) <<< 2),
       '=', '=', '=', '=', '=', '=']
  | _ => []

/-- `encoding/base32.StdEncoding.EncodeToString`: encodes bytes in groups of
five, producing eight output characters per group, padded with `=`. -/
def base32encode : List Nat → List Char
  | b0 :: b1 :: b2 :: b3 :: b4 :: rest => b32group [b0, b1, b2, b3, b4] ++ base32encode rest
  | [] => []
  | tail => b32group tail

/-- `strings.TrimRight(s, "=")`: removes all trailing `=` characters. -/
def trimRightEq (l : List Char) : List Char :=
  (l.reverse.dropWhile (fun c => c == '=')).reverse

/-- The identifier built by `Save` for a session with an empty identifier:
base-32 encode the bytes returned by `securecookie.GenerateRandomKey(32)`
(`none` models a `nil` slice, which encodes to the empty string) and strip
trailing padding. -/
def genId (key : Option (List Nat)) : GoStr :=
  trimRightEq (base32encode (match key with | none => [] | some bs => bs))

/-- Modelled from the spec: the wire-record constructor `NewSession` lives in
a repository file that is not under `src/`; per the spec the record packs the
serialized values blob and `expires_at = now + maxAge` when `maxAge > 0`,
else `0`.  The clock reading is passed explicitly. -/
def NewSession (buf : Bytes) (maxAge : Int) (now : Int) : Session :=
  { values := buf, expiresAt := if 0 < maxAge then now + maxAge else 0 }

/-- The external collaborators of the store, passed to each operation:
the gob codec for the values mapping, the protobuf codec for the wire
record, the secure-cookie codec chain, the random key generator, the clock,
and a flag injecting a backing-store transaction failure. -/
structure Ext where
  gobEnc : Values → Except Err Bytes
  gobDec : Bytes → Except Err Values
  protoMarshal : Session → Except Err Bytes
  protoUnmarshal : Bytes → Except Err Session
  encodeMulti : GoStr → GoStr → Except Err GoStr
  decodeMulti : GoStr → GoStr → Except Err GoStr
  genKey : Option (List Nat)
  now : Int
  dbFault : Bool

/-- Result of `load`: the `exists` flag, the Go error (`none` = nil), and
the updated bucket and session. -/
structure LoadOut where
  found : Bool
  err : Option Err
  db : DB
  sess : GoSession
  deriving DecidableEq, Repr

/-- `store.load` (src/store.go lines 100-128): looks the session identifier
up in the bucket; a miss returns `(false, nil)`; a record that fails
protobuf unmarshalling returns the error; a record whose expiration is
nonzero and in the past is deleted and reported absent; otherwise the gob
payload is decoded into the session values and `(true, nil)` is returned.
A transaction error rolls the bucket back unchanged. -/
def load (E : Ext) (db : DB) (sess : GoSession) : LoadOut :=
  match dbGet db sess.id with
  | none => ⟨false, none, db, sess⟩
  | some data =>
    match E.protoUnmarshal data with
    | .error e => ⟨false, some e, db, sess⟩
    | .ok rec =>
      if 0 < rec.expiresAt ∧ rec.expiresAt < E.now then
        if E.dbFault then ⟨false, some .backingStore, db, sess⟩
        else ⟨false, none, dbDelete db sess.id, sess⟩
      else
        match E.gobDec rec.values with
        | .error e => ⟨true, some e, db, sess⟩
        | .ok v => ⟨true, none, db, { sess with values := v }⟩

/-- `store.delete` (src/store.go lines 131-139): removes the session's key
from the bucket inside one transaction; the transaction can fail. -/
def delete (E : Ext) (db : DB) (id : GoStr) : Option Err × DB :=
  if E.dbFault then (some .backingStore, db) else (none, dbDelete db id)

/-- `store.save` (src/store.go lines 142-157): gob-encodes the values (an
encoding error is returned), protobuf-marshals the wire record (a marshal
error makes the function return nil — the source's `return nil` on line
151 — without persisting anything), then puts the record bytes under the
session identifier inside one transaction.  An error from `Put` (such as
`ErrKeyRequired` for a blank identifier) aborts the transaction, leaving
the bucket unchanged, and is returned. -/
def save (E : Ext) (db : DB) (sess : GoSession) : Option Err × DB :=
  match E.gobEnc sess.values with
  | .error e => (some e, db)
  | .ok buf =>
    match E.protoMarshal (NewSession buf sess.options.maxAge E.now) with
    | .error _ => (none, db)
    | .ok data =>
      if E.dbFault then (some Err.backingStore, db)
      else
        match dbPut db sess.id data with
        | .error e => (some e, db)
        | .ok db2 => (none, db2)

/-- Result of `Save`: the Go error, the updated bucket, the session as
mutated by `Save` (identifier assignment), and the response cookie set, if
any. -/
structure SaveOut where
  err : Option Err
  db : DB
  sess : GoSession
  cookie : Option Cookie
  deriving DecidableEq, Repr

/-- `store.Save` (src/store.go lines 50-69): with a negative max-age it
calls `delete` (discarding its error) and sets a cookie with empty value
and the session options; otherwise it assigns a generated identifier when
the session has none, calls `save` (returning its error), encodes the
identifier through the secure-cookie codec (returning its error), and only
then sets the cookie carrying the encoded identifier. -/
def Save (E : Ext) (name : GoStr) (db : DB) (sess0 : GoSession) : SaveOut :=
  if sess0.options.maxAge < 0 then
    ⟨none, (delete E db sess0.id).2, sess0, some ⟨name, [], sess0.options⟩⟩
  else
    let sess := if sess0.id = [] then { sess0 with id := genId E.genKey } else sess0
    match save E db sess with
    | (some e, db1) => ⟨some e, db1, sess, none⟩
    | (none, db1) =>
      match E.encodeMulti name sess.id with
      | .error e => ⟨some e, db1, sess, none⟩
      | .ok enc => ⟨none, db1, sess, some ⟨name, enc, sess.options⟩⟩

/-- Result of `New`: the session, the Go error and the updated bucket. -/
structure NewOut where
  sess : GoSession
  err : Option Err
  db : DB
  deriving DecidableEq, Repr

/-- `store.New` (src/store.go lines 34-47): builds a fresh session with the
configured options and `IsNew = true`; when the request carries the named
cookie, decodes it into the session identifier (a decode failure is
returned, the session staying new), and on success calls `load`, marking
the session not-new exactly when `load` returned `(true, nil)`.  The error
from `load` is bound by `:=` to a fresh shadowing variable in the source,
so the error `New` returns in that branch is the outer one, which is nil. -/
def New (E : Ext) (name : GoStr) (cookie : Option GoStr) (defOpts : Options) (db : DB) : NewOut :=
  let sess0 : GoSession := { id := [], isNew := true, values := [], options := defOpts }
  match cookie with
  | none => ⟨sess0, none, db⟩
  | some cval =>
    match E.decodeMulti name cval with
    | .error e => ⟨sess0, some e, db⟩
    | .ok id =>
      let r := load E db { sess0 with id := id }
      ⟨{ r.sess with isNew := !(r.err.isNone && r.found) }, none, r.db⟩

/-- `store.Get` (src/store.go lines 27-29): returns the session through the
per-request registry of `gorilla/sessions`; on a fresh request the registry
has no entry for the name, so `Get` performs `New`.  The registry itself is
framework state outside this repository. -/
def Get (E : Ext) (name : GoStr) (cookie : Option GoStr) (defOpts : Options) (db : DB) : NewOut :=
  New E name cookie defOpts db

/-! ### Helper lemmas: the bucket model -/

lemma dbGet_dbDelete_self (db : DB) (k : GoStr) : dbGet (dbDelete db k) k = none := by
  induction db with
  | nil => rfl
  | cons hd tl ih =>
    obtain ⟨k1, v1⟩ := hd
    by_cases h : k1 = k
    · simpa [dbDelete, h] using ih
    · simp [dbDelete, dbGet, h, ih]

lemma dbPut_ne_nil (db : DB) (k : GoStr) (v : Bytes) (h : ¬ k = []) :
    dbPut db k v = .ok ((k, v) :: dbDelete db k) := by
  simp [dbPut, h]

lemma dbGet_cons_self (db : DB) (k : GoStr) (v : Bytes) :
    dbGet ((k, v) :: db) k = some v := by
  simp [dbGet]

/-! ### Helper lemmas: base-32 encoding and padding removal -/

lemma b32char_spec (n : Nat) :
    (b32char n).isAlphanum = true ∧ (b32char n == '=') = false := by
  unfold b32char
  have h : n % 32 < 32 := Nat.mod_lt _ (by decide)
  revert h
  generalize n % 32 = m
  intro h
  interval_cases m <;> decide

lemma dropWhile_pad (n : Nat) (X : List Char) :
    List.dropWhile (fun c => c == '=') (List.replicate n '=' ++ X)
      = List.dropWhile (fun c => c == '=') X := by
  induction n with
  | zero => rfl
  | succ m ih => simp [List.replicate_succ, List.dropWhile_cons, ih]

lemma trimRightEq_pad (L : List Char) (c : Char) (n : Nat) (hc : (c == '=') = false) :
    trimRightEq (L ++ c :: List.replicate n '=') = L ++ [c] := by
  unfold trimRightEq
  have h1 : (L ++ c :: List.replicate n '=').reverse
      = List.replicate n '=' ++ (c :: L.reverse) := by
    simp [List.reverse_append, List.reverse_cons, List.reverse_replicate]
  rw [h1, dropWhile_pad]
  simp [List.dropWhile_cons, hc]

/-- The 5-bit groups emitted for one full 5-byte base-32 input group. -/
def b32idx5 (a b c d e : Nat) : List Nat :=
  [a >>> 3, ((a &&& 7) <<< 2) ||| (b >>> 6), (b >>> 1) &&& 31, ((b &&& 1) <<< 4) ||| (c >>> 4),
   ((c &&& 15) <<< 1) ||| (d >>> 7), (d >>> 2) &&& 31, ((d &&& 3) <<< 3) ||| (e >>> 5), e &&& 31]

/-- The 5-bit groups emitted for a trailing 2-byte input group, before padding. -/
def b32idx2 (a b : Nat) : List Nat :=
  [a >>> 3, ((a &&& 7) <<< 2) ||| (b >>> 6), (b >>> 1) &&& 31, (b &&& 1) <<< 4]

lemma genId_key32 (b0 b1 b2 b3 b4 b5 b6 b7 b8 b9 b10 b11 b12 b13 b14 b15 b16 b17 b18
    b19 b20 b21 b22 b23 b24 b25 b26 b27 b28 b29 b30 b31 : Nat) :
    genId (some [b0, b1, b2, b3, b4, b5, b6, b7, b8, b9, b10, b11, b12, b13, b14, b15,
        b16, b17, b18, b19, b20, b21, b22, b23, b24, b25, b26, b27, b28, b29, b30, b31]) =
      List.map b32char
        (b32idx5 b0 b1 b2 b3 b4 ++ b32idx5 b5 b6 b7 b8 b9 ++ b32idx5 b10 b11 b12 b13 b14 ++
         b32idx5 b15 b16 b17 b18 b19 ++ b32idx5 b20 b21 b22 b23 b24 ++
         b32idx5 b25 b26 b27 b28 b29 ++ b32idx2 b30 b31) := by
  have he : genId (some [b0, b1, b2, b3, b4, b5, b6, b7, b8, b9, b10, b11, b12, b13, b14,
      b15, b16, b17, b18, b19, b20, b21, b22, b23, b24, b25, b26, b27, b28, b29, b30, b31])
      = trimRightEq (List.map b32char
          (b32idx5 b0 b1 b2 b3 b4 ++ b32idx5 b5 b6 b7 b8 b9 ++ b32idx5 b10 b11 b12 b13 b14 ++
           b32idx5 b15 b16 b17 b18 b19 ++ b32idx5 b20 b21 b22 b23 b24 ++
           b32idx5 b25 b26 b27 b28 b29 ++
           [b30 >>> 3, ((b30 &&& 7) <<< 2) ||| (b31 >>> 6), (b31 >>> 1) &&& 31])
          ++ b32char ((b31 &&& 1) <<< 4) :: List.replicate 4 '=') := rfl
  rw [he, trimRightEq_pad _ _ _ (b32char_spec ((b31 &&& 1) <<< 4)).2]
  rfl

/-! ### Helper lemmas: the non-deletion path of `Save` -/

lemma Save_sess_eq (E : Ext) (name : GoStr) (db : DB) (sess0 : GoSession)
    (hma : ¬ sess0.options.maxAge < 0) :
    (Save E name db sess0).sess =
      if sess0.id = [] then { sess0 with id := genId E.genKey } else sess0 := by
  simp only [Save, if_neg hma]
  split
  · rfl
  · split <;> rfl

lemma roundtrip_core (E1 E2 : Ext) (name : GoStr) (defOpts : Options) (db : DB)
    (sess1 : GoSession) (bv data : Bytes) (enc : GoStr)
    (hA : 0 < sess1.options.maxAge)
    (hid0 : ¬ sess1.id = [])
    (hg : E1.gobEnc sess1.values = .ok bv)
    (hm : E1.protoMarshal ⟨bv, E1.now + sess1.options.maxAge⟩ = .ok data)
    (hfault : E1.dbFault = false)
    (hdec : E2.decodeMulti name enc = .ok sess1.id)
    (hum : E2.protoUnmarshal data = .ok ⟨bv, E1.now + sess1.options.maxAge⟩)
    (hgd : E2.gobDec bv = .ok sess1.values)
    (htime : E2.now ≤ E1.now + sess1.options.maxAge) :
    save E1 db sess1 = (none, (sess1.id, data) :: dbDelete db sess1.id) ∧
    (New E2 name (some enc) defOpts
      ((sess1.id, data) :: dbDelete db sess1.id)).sess.values = sess1.values ∧
    (New E2 name (some enc) defOpts
      ((sess1.id, data) :: dbDelete db sess1.id)).sess.isNew = false := by
  have hrec : NewSession bv sess1.options.maxAge E1.now
      = ⟨bv, E1.now + sess1.options.maxAge⟩ := by
    unfold NewSession
    rw [if_pos hA]
  have hsave : save E1 db sess1 = (none, (sess1.id, data) :: dbDelete db sess1.id) := by
    unfold save
    simp only [hg, hrec, hm, hfault, dbPut_ne_nil db sess1.id data hid0]
    simp
  have hnotexp : ¬(0 < E1.now + sess1.options.maxAge ∧
      E1.now + sess1.options.maxAge < E2.now) := by omega
  have hload : load E2 ((sess1.id, data) :: dbDelete db sess1.id) ⟨sess1.id, true, [], defOpts⟩
      = ⟨true, none, (sess1.id, data) :: dbDelete db sess1.id,
          ⟨sess1.id, true, sess1.values, defOpts⟩⟩ := by
    unfold load
    simp only [dbGet_cons_self, hum, hgd, if_neg hnotexp]
  refine ⟨hsave, ?_, ?_⟩ <;> simp [New, hdec, hload]

/-! ### Claim theorems -/

/-- C1: for every values mapping V and max-age A > 0, performing `Save` on a
session holding V and then `Get` on a fresh request carrying the emitted
cookie, at a time within A seconds of the save, yields a session whose
values equal V and whose `IsNew` flag is false.  The external codecs are
assumed to round-trip at the points used, and no backing-store fault occurs.
The identifier under which the record is persisted must be non-blank, since
bolt's `Put` rejects a blank key (and then no cookie is emitted at all). -/
theorem save_then_get_roundtrip (E1 E2 : Ext) (name : GoStr) (defOpts : Options)
    (db : DB) (sess : GoSession) (bv data : Bytes) (enc idA : GoStr)
    (hA : 0 < sess.options.maxAge)
    (hid : (if sess.id = [] then genId E1.genKey else sess.id) = idA)
    (hne : ¬ idA = [])
    (hg : E1.gobEnc sess.values = .ok bv)
    (hm : E1.protoMarshal ⟨bv, E1.now + sess.options.maxAge⟩ = .ok data)
    (hfault : E1.dbFault = false)
    (henc : E1.encodeMulti name idA = .ok enc)
    (hdec : E2.decodeMulti name enc = .ok idA)
    (hum : E2.protoUnmarshal data = .ok ⟨bv, E1.now + sess.options.maxAge⟩)
    (hgd : E2.gobDec bv = .ok sess.values)
    (htime : E2.now ≤ E1.now + sess.options.maxAge) :
    (Save E1 name db sess).err = none ∧
    (Save E1 name db sess).cookie = some ⟨name, enc, sess.options⟩ ∧
    (Get E2 name (some enc) defOpts (Save E1 name db sess).db).sess.values = sess.values ∧
    (Get E2 name (some enc) defOpts (Save E1 name db sess).db).sess.isNew = false := by
  have hma : ¬ sess.options.maxAge < 0 := by omega
  set s1 : GoSession := if sess.id = [] then { sess with id := genId E1.genKey } else sess
    with hs1
  have hv : s1.values = sess.values := by
    by_cases hcase : sess.id = [] <;> simp [hs1, hcase]
  have ho : s1.options = sess.options := by
    by_cases hcase : sess.id = [] <;> simp [hs1, hcase]
  have hidA : s1.id = idA := by
    by_cases hcase : sess.id = [] <;> rw [← hid] <;> simp [hs1, hcase]
  have core := roundtrip_core E1 E2 name defOpts db s1 bv data enc
    (by rw [ho]; exact hA) (by rw [hidA]; exact hne) (by rw [hv]; exact hg)
    (by rw [ho]; exact hm) hfault
    (by rw [hidA]; exact hdec) (by rw [ho]; exact hum) (by rw [hv]; exact hgd)
    (by rw [ho]; exact htime)
  have hS : Save E1 name db sess
      = ⟨none, (s1.id, data) :: dbDelete db s1.id, s1, some ⟨name, enc, s1.options⟩⟩ := by
    simp only [Save, if_neg hma, ← hs1, core.1]
    rw [hidA, henc]
  rw [hS]
  refine ⟨rfl, by rw [ho], ?_, ?_⟩
  · show (New E2 name (some enc) defOpts
      ((s1.id, data) :: dbDelete db s1.id)).sess.values = sess.values
    rw [core.2.1, hv]
  · exact core.2.2

/-- The session options used by the concrete witnesses: max-age 5 seconds. -/
def optsW : Options := ⟨[], [], 5, false, false⟩

/-- A concrete values mapping used by the witnesses. -/
def valsW : Values := [(['u'], ['4'])]

/-- A benign concrete environment at time 0: every codec succeeds, the
cookie codec is the identity, and no backing-store fault occurs. -/
def extW : Ext :=
  ⟨fun _ => .ok [7], fun _ => .ok valsW, fun _ => .ok [9], fun _ => .ok ⟨[7], 5⟩,
   fun _ v => .ok v, fun _ v => .ok v, none, 0, false⟩

/-- The benign environment read back at time 3 (within the 5-second max-age). -/
def ext2W : Ext :=
  ⟨fun _ => .ok [7], fun _ => .ok valsW, fun _ => .ok [9], fun _ => .ok ⟨[7], 5⟩,
   fun _ v => .ok v, fun _ v => .ok v, none, 3, false⟩

/-- A concrete session with identifier `x`, values `valsW` and options `optsW`. -/
def sessW : GoSession := ⟨['x'], false, valsW, optsW⟩

/-- C1 witness: the round-trip theorem instantiated at a concrete session,
bucket and environment. -/
theorem save_then_get_roundtrip_witness :
    (Save extW ['n'] [] sessW).err = none ∧
    (Save extW ['n'] [] sessW).cookie = some ⟨['n'], ['x'], sessW.options⟩ ∧
    (Get ext2W ['n'] (some ['x']) optsW (Save extW ['n'] [] sessW).db).sess.values
      = sessW.values ∧
    (Get ext2W ['n'] (some ['x']) optsW (Save extW ['n'] [] sessW).db).sess.isNew = false :=
  save_then_get_roundtrip extW ext2W ['n'] optsW [] sessW [7] [9] ['x'] ['x']
    (by decide) (by decide) (by decide) rfl rfl rfl rfl rfl rfl rfl (by decide)

/-- C5: a stored record whose expiration is nonzero and strictly in the past
at read time is treated as not found — the session returned by `New` stays
new with empty values — and the record is deleted from the bucket as a side
effect of the read. -/
theorem New_expired_record (E : Ext) (name cval : GoStr) (defOpts : Options)
    (db : DB) (id : GoStr) (data : Bytes) (rec : Session)
    (hdec : E.decodeMulti name cval = .ok id)
    (hget : dbGet db id = some data)
    (hum : E.protoUnmarshal data = .ok rec)
    (hpos : 0 < rec.expiresAt)
    (hexp : rec.expiresAt < E.now)
    (hfault : E.dbFault = false) :
    (New E name (some cval) defOpts db).sess.isNew = true ∧
    (New E name (some cval) defOpts db).sess.values = [] ∧
    (New E name (some cval) defOpts db).db = dbDelete db id ∧
    dbGet (New E name (some cval) defOpts db).db id = none := by
  have hload : load E db ⟨id, true, [], defOpts⟩ = ⟨false, none, dbDelete db id,
      ⟨id, true, [], defOpts⟩⟩ := by
    unfold load
    simp only [hget, hum, hfault, if_pos (And.intro hpos hexp), if_neg (by decide : ¬False)]
    simp
  simp [New, hdec, hload, dbGet_dbDelete_self]

/-- A concrete environment whose stored records decode to an expired record
(expiration 1) at current time 5. -/
def extExpW : Ext :=
  ⟨fun _ => .ok [], fun _ => .ok [], fun _ => .ok [], fun _ => .ok ⟨[], 1⟩,
   fun _ v => .ok v, fun _ v => .ok v, none, 5, false⟩

/-- C5 witness: the expiration theorem instantiated at a one-record bucket. -/
theorem New_expired_record_witness :
    (New extExpW ['n'] (some ['a']) optsW [(['a'], [0])]).sess.isNew = true ∧
    (New extExpW ['n'] (some ['a']) optsW [(['a'], [0])]).sess.values = [] ∧
    (New extExpW ['n'] (some ['a']) optsW [(['a'], [0])]).db = dbDelete [(['a'], [0])] ['a'] ∧
    dbGet (New extExpW ['n'] (some ['a']) optsW [(['a'], [0])]).db ['a'] = none :=
  New_expired_record extExpW ['n'] ['a'] optsW [(['a'], [0])] ['a'] [0] ⟨[], 1⟩
    rfl (by decide) rfl (by decide) (by decide) rfl

/-- C6: for a session whose options carry a negative max-age, `Save` removes
the session's record from the bucket (succeeding whether or not a record
existed, so a second call succeeds as well), emits a cookie with empty value
carrying the same (negative max-age) options, and returns nil. -/
theorem Save_negative_maxAge (E : Ext) (name : GoStr) (db : DB) (sess : GoSession)
    (hma : sess.options.maxAge < 0)
    (hfault : E.dbFault = false) :
    (Save E name db sess).err = none ∧
    dbGet (Save E name db sess).db sess.id = none ∧
    (Save E name db sess).cookie = some ⟨name, [], sess.options⟩ ∧
    (Save E name (Save E name db sess).db sess).err = none ∧
    dbGet (Save E name (Save E name db sess).db sess).db sess.id = none := by
  simp [Save, delete, hma, hfault, dbGet_dbDelete_self]

/-- A concrete session whose options carry max-age -1. -/
def sessNegW : GoSession := ⟨['a'], false, [], ⟨[], [], -1, false, false⟩⟩

/-- C6 witness: the deletion-path theorem instantiated at a concrete bucket
already holding a record for the identifier. -/
theorem Save_negative_maxAge_witness :
    (Save extW ['n'] [(['a'], [3])] sessNegW).err = none ∧
    dbGet (Save extW ['n'] [(['a'], [3])] sessNegW).db sessNegW.id = none ∧
    (Save extW ['n'] [(['a'], [3])] sessNegW).cookie
      = some ⟨['n'], [], sessNegW.options⟩ ∧
    (Save extW ['n'] (Save extW ['n'] [(['a'], [3])] sessNegW).db sessNegW).err = none ∧
    dbGet (Save extW ['n'] (Save extW ['n'] [(['a'], [3])] sessNegW).db sessNegW).db
      sessNegW.id = none :=
  Save_negative_maxAge extW ['n'] [(['a'], [3])] sessNegW (by decide) rfl

/-- C7: when the request's cookie fails secure-cookie decoding, `New` returns
a session that is still new, with no identifier and no stored data loaded,
together with the decode error as the returned error; the bucket is not
touched. -/
theorem New_decode_failure (E : Ext) (name cval : GoStr) (defOpts : Options)
    (db : DB) (e : Err)
    (hdec : E.decodeMulti name cval = .error e) :
    New E name (some cval) defOpts db
      = ⟨⟨[], true, [], defOpts⟩, some e, db⟩ := by
  simp [New, hdec]

/-- A concrete environment whose cookie codec rejects every inbound cookie. -/
def extDecFailW : Ext :=
  ⟨fun _ => .ok [], fun _ => .ok [], fun _ => .ok [], fun _ => .ok ⟨[], 0⟩,
   fun _ v => .ok v, fun _ _ => .error .cookieDecode, none, 0, false⟩

/-- C7 witness: the decode-failure theorem at a concrete tampered cookie. -/
theorem New_decode_failure_witness :
    New extDecFailW ['n'] (some ['z']) optsW [(['a'], [3])]
      = ⟨⟨[], true, [], optsW⟩, some .cookieDecode, [(['a'], [3])]⟩ :=
  New_decode_failure extDecFailW ['n'] ['z'] optsW [(['a'], [3])] .cookieDecode rfl

/-- C9: `load` only overwrites the session's values when a valid, non-expired
record was found and its payload decoded (first conjunct); a bucket miss
returns `(false, nil)` and leaves bucket and session untouched (second
conjunct); an expired record returns `(false, nil)` and leaves the values
untouched, deleting only the record (third conjunct). -/
theorem load_frame (E : Ext) (db : DB) (sess : GoSession) :
    ((load E db sess).sess.values ≠ sess.values →
      (load E db sess).found = true ∧ (load E db sess).err = none) ∧
    (dbGet db sess.id = none → load E db sess = ⟨false, none, db, sess⟩) ∧
    (∀ data rec, dbGet db sess.id = some data → E.protoUnmarshal data = .ok rec →
      0 < rec.expiresAt → rec.expiresAt < E.now → E.dbFault = false →
      load E db sess = ⟨false, none, dbDelete db sess.id, sess⟩) := by
  have hmiss : dbGet db sess.id = none → load E db sess = ⟨false, none, db, sess⟩ := by
    intro hget
    unfold load
    simp only [hget]
  have hdel : ∀ data rec, dbGet db sess.id = some data → E.protoUnmarshal data = .ok rec →
      0 < rec.expiresAt → rec.expiresAt < E.now → E.dbFault = false →
      load E db sess = ⟨false, none, dbDelete db sess.id, sess⟩ := by
    intro data rec hget hum hpos hexp hfault
    unfold load
    simp only [hget, hum, hfault, if_pos (And.intro hpos hexp)]
    simp
  refine ⟨?_, hmiss, hdel⟩
  intro hne
  rcases hget : dbGet db sess.id with _ | data
  · rw [hmiss hget] at hne
    simp at hne
  · rcases hum : E.protoUnmarshal data with e | rec
    · have h0 : load E db sess = ⟨false, some e, db, sess⟩ := by
        unfold load
        simp only [hget, hum]
      rw [h0] at hne
      simp at hne
    · by_cases hexp : 0 < rec.expiresAt ∧ rec.expiresAt < E.now
      · cases hf : E.dbFault with
        | false =>
          rw [hdel data rec hget hum hexp.1 hexp.2 hf] at hne
          simp at hne
        | true =>
          have h0 : load E db sess = ⟨false, some .backingStore, db, sess⟩ := by
            unfold load
            simp only [hget, hum, hf, if_pos hexp]
            simp
          rw [h0] at hne
          simp at hne
      · rcases hgd : E.gobDec rec.values with e | v
        · have h0 : load E db sess = ⟨true, some e, db, sess⟩ := by
            unfold load
            simp only [hget, hum, hgd, if_neg hexp]
          rw [h0] at hne
          simp at hne
        · have h0 : load E db sess
              = ⟨true, none, db, { sess with values := v }⟩ := by
            unfold load
            simp only [hget, hum, hgd, if_neg hexp]
          rw [h0]
          exact ⟨rfl, rfl⟩

/-- C10 (amended): when the random key generator yields no bytes while `Save`
generates an identifier for a session with empty identifier, the identifier
remains empty and `Save` proceeds to attempt the persist under the
empty-string key; bolt's `Put` rejects the blank key with `ErrKeyRequired`,
so `Save` returns that error, the bucket is unchanged, and no cookie is set. -/
theorem Save_nil_random_key (E : Ext) (name : GoStr) (db : DB) (sess : GoSession)
    (buf data : Bytes)
    (hkey : E.genKey = none)
    (hid : sess.id = [])
    (hma : ¬ sess.options.maxAge < 0)
    (hg : E.gobEnc sess.values = .ok buf)
    (hm : E.protoMarshal (NewSession buf sess.options.maxAge E.now) = .ok data)
    (hfault : E.dbFault = false) :
    (Save E name db sess).sess.id = [] ∧
    (Save E name db sess).err = some .keyRequired ∧
    (Save E name db sess).db = db ∧
    (Save E name db sess).cookie = none := by
  have hgen : genId E.genKey = [] := by rw [hkey]; rfl
  have hsave : save E db { sess with id := ([] : GoStr) }
      = (some Err.keyRequired, db) := by
    unfold save
    simp only [hg, hm, hfault]
    simp [dbPut]
  simp [Save, hma, hid, hgen, hsave]

/-- A concrete session with empty identifier, values `valsW`, options `optsW`. -/
def sessEmptyW : GoSession := ⟨[], true, valsW, optsW⟩

/-- C10 witness: the nil-random-key theorem at a concrete session; `extW` has
`genKey = none`. -/
theorem Save_nil_random_key_witness :
    (Save extW ['n'] [] sessEmptyW).sess.id = [] ∧
    (Save extW ['n'] [] sessEmptyW).err = some .keyRequired ∧
    (Save extW ['n'] [] sessEmptyW).db = [] ∧
    (Save extW ['n'] [] sessEmptyW).cookie = none :=
  Save_nil_random_key extW ['n'] [] sessEmptyW [7] [9]
    rfl rfl (by decide) rfl rfl rfl

/-- C10 counterexample: at a concrete session with empty identifier and a nil
random key, `Save` does not behave as the claim states — it neither reports
success, nor persists a record under the empty-string key, nor sets a cookie
encoding the empty identifier; bolt's `Put` fails the save with
`ErrKeyRequired` instead. -/
theorem Save_nil_random_key_cex :
    ¬((Save extW ['n'] [] sessEmptyW).err = none ∧
      dbGet (Save extW ['n'] [] sessEmptyW).db [] = some [9] ∧
      (Save extW ['n'] [] sessEmptyW).cookie = some ⟨['n'], [], sessEmptyW.options⟩) := by
  decide

/-- C8: when a session's identifier is empty at `Save` time (max-age not
negative) and the random generator yields 32 bytes, `Save` assigns the
identifier obtained by base-32 encoding those bytes and stripping trailing
padding; that identifier is non-empty, alphanumeric, and of the fixed
length 52. -/
theorem Save_generates_identifier (E : Ext) (name : GoStr) (db : DB) (sess : GoSession)
    (b0 b1 b2 b3 b4 b5 b6 b7 b8 b9 b10 b11 b12 b13 b14 b15 b16 b17 b18 b19 b20 b21
      b22 b23 b24 b25 b26 b27 b28 b29 b30 b31 : Nat)
    (hkey : E.genKey = some [b0, b1, b2, b3, b4, b5, b6, b7, b8, b9, b10, b11, b12,
      b13, b14, b15, b16, b17, b18, b19, b20, b21, b22, b23, b24, b25, b26, b27,
      b28, b29, b30, b31])
    (hid : sess.id = [])
    (hma : ¬ sess.options.maxAge < 0) :
    (Save E name db sess).sess.id
      = trimRightEq (base32encode [b0, b1, b2, b3, b4, b5, b6, b7, b8, b9, b10, b11,
          b12, b13, b14, b15, b16, b17, b18, b19, b20, b21, b22, b23, b24, b25, b26,
          b27, b28, b29, b30, b31]) ∧
    (Save E name db sess).sess.id ≠ [] ∧
    (Save E name db sess).sess.id.length = 52 ∧
    ∀ c ∈ (Save E name db sess).sess.id, c.isAlphanum = true := by
  have hs : (Save E name db sess).sess.id = genId E.genKey := by
    rw [Save_sess_eq E name db sess hma, if_pos hid]
  rw [hs, hkey]
  have hg := genId_key32 b0 b1 b2 b3 b4 b5 b6 b7 b8 b9 b10 b11 b12 b13 b14 b15 b16
    b17 b18 b19 b20 b21 b22 b23 b24 b25 b26 b27 b28 b29 b30 b31
  refine ⟨rfl, ?_, ?_, ?_⟩
  · rw [hg]
    simp [b32idx5, b32idx2]
  · rw [hg]
    rfl
  · rw [hg]
    intro c hc
    rw [List.mem_map] at hc
    obtain ⟨n, _, rfl⟩ := hc
    exact (b32char_spec n).1

/-- A concrete environment whose random key generator yields 32 zero bytes. -/
def extKeyW : Ext :=
  ⟨fun _ => .ok [7], fun _ => .ok valsW, fun _ => .ok [9], fun _ => .ok ⟨[7], 5⟩,
   fun _ v => .ok v, fun _ v => .ok v, some (List.replicate 32 0), 0, false⟩

/-- C8 witness: identifier generation at the all-zero 32-byte key. -/
theorem Save_generates_identifier_witness :
    (Save extKeyW ['n'] [] sessEmptyW).sess.id
      = trimRightEq (base32encode (List.replicate 32 0)) ∧
    (Save extKeyW ['n'] [] sessEmptyW).sess.id ≠ [] ∧
    (Save extKeyW ['n'] [] sessEmptyW).sess.id.length = 52 ∧
    ∀ c ∈ (Save extKeyW ['n'] [] sessEmptyW).sess.id, c.isAlphanum = true :=
  Save_generates_identifier extKeyW ['n'] [] sessEmptyW
    0 0 0 0 0 0 0 0 0 0 0 0 0 0 0 0 0 0 0 0 0 0 0 0 0 0 0 0 0 0 0 0
    rfl rfl (by decide)

/-- An environment whose protobuf marshalling of the wire record fails while
everything else succeeds. -/
def extMarshalFailW : Ext :=
  ⟨fun _ => .ok [7], fun _ => .ok valsW, fun _ => .error .malformed,
   fun _ => .ok ⟨[7], 5⟩, fun _ v => .ok v, fun _ v => .ok v, none, 0, false⟩

/-- C2 (code bug, src/store.go line 151): when `proto.Marshal` of the wire
record fails inside `save`, the source returns nil instead of the error, so
the serialization failure is silently swallowed: `save` reports success and
persists nothing. -/
theorem save_swallows_marshal_error :
    save extMarshalFailW [] sessW = (none, []) := by decide

/-- C3 (code bug, consequence of src/store.go line 151): with the wire-record
marshal failing, nothing is persisted to the backing store — the bucket stays
empty and the session's key is absent — yet `Save` reports success and sets
the response cookie, violating persist-before-cookie ordering. -/
theorem Save_sets_cookie_without_persist :
    (Save extMarshalFailW ['n'] [] sessW).db = [] ∧
    dbGet (Save extMarshalFailW ['n'] [] sessW).db sessW.id = none ∧
    (Save extMarshalFailW ['n'] [] sessW).err = none ∧
    (Save extMarshalFailW ['n'] [] sessW).cookie
      = some ⟨['n'], ['x'], sessW.options⟩ := by decide

/-- An environment in which every backing-store transaction fails, and whose
stored records fail protobuf unmarshalling. -/
def extFaultW : Ext :=
  ⟨fun _ => .ok [7], fun _ => .ok valsW, fun _ => .ok [9],
   fun _ => .error .malformed, fun _ v => .ok v, fun _ v => .ok v, none, 0, true⟩

/-- C4 (code bug, src/store.go lines 52 and 42): `Save` on the negative
max-age path discards the error of `delete` and returns nil even though the
backing-store delete failed; and `New` binds the error of `load` to a
shadowing variable, so when `load` fails (here: the stored record fails
unmarshalling) `New` still returns a nil error. -/
theorem errors_swallowed_in_Save_and_New :
    (delete extFaultW [(['a'], [0])] ['a']).1 = some .backingStore ∧
    (Save extFaultW ['n'] [(['a'], [0])] sessNegW).err = none ∧
    (load extFaultW [(['a'], [0])] ⟨['a'], true, [], optsW⟩).err = some .malformed ∧
    (New extFaultW ['n'] (some ['a']) optsW [(['a'], [0])]).err = none := by decide

end Boltstore
